import Mathlib

/-!
Verification of the Lockify vault core: master-key derivation, per-record
envelope encryption/decryption (src/utils/crypto.ts), the remote record
store interface (src/services/db.ts), and the hydrate/upsert/remove/lock
logic of the application shell (src/App.tsx).

Machine integers never overflow in the modelled code (timestamps and
counts are ordinary JS numbers used as integers), so they are embedded as
Nat.  Byte sequences are embedded as List Nat; the base64 transport
encoding of ciphertext and nonce (bufferToBase64 / base64ToBuffer) is an
injective bytes-to-text encoding with a computable inverse and is elided:
envelopes carry the byte sequences themselves.
-/

namespace Lockify

/-- Item kinds, from the ItemType enum of the types module.  Every enum
value is a non-empty string constant, hence truthy in JS. -/
inductive ItemType
  | LOGIN
  | NOTE
  | CARD
  | KEY
deriving DecidableEq, Repr

/-- The string constant carried by each ItemType enum value. -/
def ItemType.toStr : ItemType → String
  | .LOGIN => "LOGIN"
  | .NOTE => "NOTE"
  | .CARD => "CARD"
  | .KEY => "KEY"

/-- Recover an ItemType from its string constant (used when the decrypted
JSON is read back as a record). -/
def ItemType.ofStr (s : String) : Option ItemType :=
  if s = "LOGIN" then some .LOGIN
  else if s = "NOTE" then some .NOTE
  else if s = "CARD" then some .CARD
  else if s = "KEY" then some .KEY
  else none

/-- A plaintext vault record (interface VaultItem of the types module).
The TS interface marks username/password/url/notes/folder/favorite as
optional, but handleSaveItem fills every field with a default before a
record is ever encrypted, so records are embedded with all fields
present. -/
structure VaultItem where
  id : String
  type : ItemType
  title : String
  username : String
  password : String
  url : String
  notes : String
  folder : String
  favorite : Bool
  createdAt : Nat
  updatedAt : Nat
deriving DecidableEq, Repr

/-- An encrypted envelope (interface EncryptedVaultItem).  The data and iv
fields hold the ciphertext and nonce byte sequences (base64 transport
elided, see the file comment). -/
structure EncryptedVaultItem where
  id : String
  data : List Nat
  iv : List Nat
  salt : String
  ownerId : String
  updatedAt : Nat
deriving DecidableEq, Repr

/-- The authenticated principal (interface UserProfile). -/
structure UserProfile where
  uid : String
  email : Option String
  displayName : Option String
deriving DecidableEq, Repr

/-- The argument of handleSaveItem: a Partial VaultItem, every field
possibly absent (undefined). -/
structure PartialVaultItem where
  id : Option String := none
  type : Option ItemType := none
  title : Option String := none
  username : Option String := none
  password : Option String := none
  url : Option String := none
  notes : Option String := none
  folder : Option String := none
  favorite : Option Bool := none
  createdAt : Option Nat := none
  updatedAt : Option Nat := none
deriving DecidableEq, Repr

/-! ## JSON serialization

encryptData serializes the record with JSON.stringify before encrypting,
and decryptData applies JSON.parse to the decrypted text.  JSON.stringify
and JSON.parse are platform primitives; they are modelled from the spec
(section 4.2: canonical serialization, stable field order, lossless):
stringify emits the object literal fields of handleSaveItem in their
declaration order with standard JSON string escaping (control characters
as backslash-u00XX), and parse is its character-level inverse on that
canonical grammar, agreeing with JSON.parse there. -/

/-- The decimal digit character for d < 10. -/
def decDigit (d : Nat) : Char := Char.ofNat (48 + d)

/-- Is c one of the characters 0-9. -/
def isDecDigit (c : Char) : Bool := 48 ≤ c.toNat && c.toNat ≤ 57

/-- The lowercase hexadecimal digit character for h < 16. -/
def hexChar (h : Nat) : Char :=
  if h < 10 then Char.ofNat (48 + h) else Char.ofNat (87 + h)

/-- Is c a lowercase hexadecimal digit. -/
def isHex (c : Char) : Bool :=
  (48 ≤ c.toNat && c.toNat ≤ 57) || (97 ≤ c.toNat && c.toNat ≤ 102)

/-- Numeric value of a lowercase hexadecimal digit character. -/
def hexVal (c : Char) : Nat :=
  if 97 ≤ c.toNat then c.toNat - 87 else c.toNat - 48

/-- Decimal digit characters of n, most significant first; fuel-based so
that it evaluates by kernel reduction.  Called with fuel > n. -/
def natToCharsAux : Nat → Nat → List Char
  | 0, _ => []
  | fuel + 1, n =>
      if n < 10 then [decDigit n]
      else natToCharsAux fuel (n / 10) ++ [decDigit (n % 10)]

/-- Decimal digit characters of n, most significant first (the JSON text
of a non-negative JS number). -/
def natToChars (n : Nat) : List Char := natToCharsAux (n + 1) n

/-- JSON escaping of one character, as JSON.stringify emits it (control
characters via the backslash-u00XX form, which JSON.parse reads back
identically to the short escapes JS may emit for a few of them). -/
def escChar (c : Char) : List Char :=
  if c = '"' then ['\\', '"']
  else if c = '\\' then ['\\', '\\']
  else if c.toNat < 32 then
    '\\' :: 'u' :: '0' :: '0' :: hexChar (c.toNat / 16) :: [hexChar (c.toNat % 16)]
  else [c]

/-- JSON escaping of a character sequence. -/
def escList : List Char → List Char
  | [] => []
  | c :: cs => escChar c ++ escList cs

/-- A JSON string literal: quote, escaped content, quote. -/
def jstr (s : String) : List Char := '"' :: (escList s.data ++ ['"'])

/-- The characters introducing one object field: quoted name and colon. -/
def fieldPre (name : String) : List Char := '"' :: (name.data ++ ['"', ':'])

/-- The JSON text of a boolean. -/
def boolChars (b : Bool) : List Char :=
  if b then ['t', 'r', 'u', 'e'] else ['f', 'a', 'l', 's', 'e']

/-- JSON.stringify of the record object literal built by handleSaveItem:
fields in declaration order id, type, title, username, password, url,
notes, folder, favorite, createdAt, updatedAt. -/
def serializeChars (r : VaultItem) : List Char :=
  '\x7b' ::
    (fieldPre "id" ++ jstr r.id ++
     ',' :: (fieldPre "type" ++ jstr r.type.toStr ++
     ',' :: (fieldPre "title" ++ jstr r.title ++
     ',' :: (fieldPre "username" ++ jstr r.username ++
     ',' :: (fieldPre "password" ++ jstr r.password ++
     ',' :: (fieldPre "url" ++ jstr r.url ++
     ',' :: (fieldPre "notes" ++ jstr r.notes ++
     ',' :: (fieldPre "folder" ++ jstr r.folder ++
     ',' :: (fieldPre "favorite" ++ boolChars r.favorite ++
     ',' :: (fieldPre "createdAt" ++ natToChars r.createdAt ++
     ',' :: (fieldPre "updatedAt" ++ natToChars r.updatedAt ++
     ['\x7d'])))))))))))

/-- JSON.stringify of a vault record, as a string. -/
def stringifyVaultItem (r : VaultItem) : String := ⟨serializeChars r⟩

/-- Consume an expected literal character sequence and return the rest. -/
def expectChars : List Char → List Char → Option (List Char)
  | [], cs => some cs
  | _ :: _, [] => none
  | p :: ps, c :: cs => if c = p then expectChars ps cs else none

/-- Parse the body of a JSON string literal after its opening quote:
returns the unescaped content and the characters after the closing
quote. -/
def parseStringAux : List Char → Option (List Char × List Char)
  | [] => none
  | c :: cs =>
    if c = '"' then some ([], cs)
    else if c = '\\' then
      match cs with
      | [] => none
      | e :: cs2 =>
        if e = '"' then (parseStringAux cs2).map (fun p => ('"' :: p.1, p.2))
        else if e = '\\' then (parseStringAux cs2).map (fun p => ('\\' :: p.1, p.2))
        else if e = 'u' then
          match cs2 with
          | h1 :: h2 :: h3 :: h4 :: cs3 =>
            if isHex h1 && isHex h2 && isHex h3 && isHex h4 then
              let v := ((hexVal h1 * 16 + hexVal h2) * 16 + hexVal h3) * 16 + hexVal h4
              if (Char.ofNat v).toNat = v then
                (parseStringAux cs3).map (fun p => (Char.ofNat v :: p.1, p.2))
              else none
            else none
          | _ => none
        else none
    else if c.toNat < 32 then none
    else (parseStringAux cs).map (fun p => (c :: p.1, p.2))

/-- Parse a JSON string literal. -/
def parseJString (cs : List Char) : Option (String × List Char) :=
  match cs with
  | '"' :: rest =>
    match parseStringAux rest with
    | some p => some (⟨p.1⟩, p.2)
    | none => none
  | _ => none

/-- Consume decimal digits, accumulating their value. -/
def parseNatAux : List Char → Nat → Nat × List Char
  | [], acc => (acc, [])
  | c :: cs, acc =>
    if isDecDigit c then parseNatAux cs (acc * 10 + (c.toNat - 48))
    else (acc, c :: cs)

/-- Parse a JSON non-negative number (at least one digit). -/
def parseNat (cs : List Char) : Option (Nat × List Char) :=
  match cs with
  | c :: _ => if isDecDigit c then some (parseNatAux cs 0) else none
  | [] => none

/-- Parse a JSON boolean literal. -/
def parseBool (cs : List Char) : Option (Bool × List Char) :=
  match expectChars (boolChars true) cs with
  | some rest => some (true, rest)
  | none =>
    match expectChars (boolChars false) cs with
    | some rest => some (false, rest)
    | none => none

/-- Parse one comma-prefixed string-valued object field. -/
def pStrField (name : String) (cs : List Char) : Option (String × List Char) :=
  match expectChars (',' :: fieldPre name) cs with
  | none => none
  | some cs2 => parseJString cs2

/-- Parse one comma-prefixed number-valued object field. -/
def pNatField (name : String) (cs : List Char) : Option (Nat × List Char) :=
  match expectChars (',' :: fieldPre name) cs with
  | none => none
  | some cs2 => parseNat cs2

/-- JSON.parse of a canonical vault-record text (the grammar emitted by
serializeChars), returning the record and the remaining characters. -/
def parseVaultItemChars (cs0 : List Char) : Option (VaultItem × List Char) :=
  match expectChars ('\x7b' :: fieldPre "id") cs0 with
  | none => none
  | some cs1 =>
    match parseJString cs1 with
    | none => none
    | some p1 =>
      match pStrField "type" p1.2 with
      | none => none
      | some pty =>
        match ItemType.ofStr pty.1 with
        | none => none
        | some ty =>
          match pStrField "title" pty.2 with
          | none => none
          | some p2 =>
            match pStrField "username" p2.2 with
            | none => none
            | some p3 =>
              match pStrField "password" p3.2 with
              | none => none
              | some p4 =>
                match pStrField "url" p4.2 with
                | none => none
                | some p5 =>
                  match pStrField "notes" p5.2 with
                  | none => none
                  | some p6 =>
                    match pStrField "folder" p6.2 with
                    | none => none
                    | some p7 =>
                      match expectChars (',' :: fieldPre "favorite") p7.2 with
                      | none => none
                      | some cs10 =>
                        match parseBool cs10 with
                        | none => none
                        | some p8 =>
                          match pNatField "createdAt" p8.2 with
                          | none => none
                          | some p9 =>
                            match pNatField "updatedAt" p9.2 with
                            | none => none
                            | some p10 =>
                              match expectChars ['\x7d'] p10.2 with
                              | none => none
                              | some cs13 =>
                                some ({ id := p1.1, type := ty, title := p2.1,
                                        username := p3.1, password := p4.1,
                                        url := p5.1, notes := p6.1,
                                        folder := p7.1, favorite := p8.1,
                                        createdAt := p9.1,
                                        updatedAt := p10.1 }, cs13)

/-! ## Text encoding

TextEncoder/TextDecoder are platform primitives; modelled from the spec
(section 4.2: UTF-8 text encoding, lossless) as an injective
character-to-symbol encoding with a computable partial inverse — each
character is carried by its code point; the round-trip behaviour is that
of UTF-8 on valid Unicode text. -/

/-- TextEncoder: text to a byte-symbol sequence. -/
def textEncode (s : String) : List Nat := s.data.map Char.toNat

/-- Decode one symbol back to a character, rejecting invalid code
points. -/
def charOfCode (n : Nat) : Option Char :=
  if (Char.ofNat n).toNat = n then some (Char.ofNat n) else none

/-- Decode a byte-symbol sequence back to characters, if every symbol is
valid. -/
def decodeChars : List Nat → Option (List Char)
  | [] => some []
  | n :: ns =>
    match charOfCode n, decodeChars ns with
    | some c, some cs => some (c :: cs)
    | _, _ => none

/-- TextDecoder: byte-symbol sequence back to text, if valid. -/
def textDecode (bs : List Nat) : Option String :=
  (decodeChars bs).map fun cs => ⟨cs⟩

/-! ## crypto.ts -/

/-- Modelled from the spec: the AES-GCM authentication tag of the Web
Crypto AEAD (section 4.2) — a checksum binding key, nonce and plaintext;
decryption recomputes and compares it, so tampering with the ciphertext
is detected.  (The model captures the functional contract — round trip
and atomic authenticated failure — not secrecy.) -/
def gcmTag (key nonce pt : List Nat) : Nat :=
  ((key ++ nonce) ++ pt).foldl (fun acc b => (acc * 131 + b + 1) % 65536) 17

/-- Modelled from the spec: window.crypto.subtle.encrypt with AES-GCM —
the ciphertext carries the plaintext authenticated by the tag. -/
def aesGcmEncrypt (key nonce pt : List Nat) : List Nat :=
  pt ++ [gcmTag key nonce pt]

/-- Modelled from the spec: window.crypto.subtle.decrypt with AES-GCM —
verifies the authentication tag and fails as a single atomic outcome on
any mismatch (tampering, truncation, wrong key). -/
def aesGcmDecrypt (key nonce ct : List Nat) : Option (List Nat) :=
  if ct = [] then none
  else
    let pt := ct.dropLast
    if ct = pt ++ [gcmTag key nonce pt] then some pt else none

/-- Modelled from the spec: PBKDF2 with SHA-256 and 100000 iterations
(Web Crypto deriveKey, section 4.1) — an opaque deterministic key-
stretching function of password bytes and salt. -/
def pbkdf2 (pw salt : List Nat) : List Nat :=
  [((pw ++ salt).foldl (fun acc b => (acc * 257 + b + 3) % 1000003) 5), 100000]

/-- deriveKey from src/utils/crypto.ts: imports the raw password bytes
and derives an AES-GCM key via PBKDF2.  No check whatsoever is made on
the password (in particular the empty password is derived like any
other). -/
def deriveKey (password : String) (salt : List Nat) : List Nat :=
  pbkdf2 (textEncode password) salt

/-- getRandomValues of a fresh len-byte array: the len bytes drawn from
the entropy source backing this call. -/
def getRandomValues (len : Nat) (draw : Nat → Nat) : List Nat :=
  (List.range len).map fun i => draw i % 256

/-- encryptData from src/utils/crypto.ts: serialize the record, draw a
fresh 12-byte random nonce internally (callers pass no nonce), encrypt
with AES-GCM; returns (ciphertext, iv).  draw is the entropy source
consumed by the internal getRandomValues call. -/
def encryptData (data : VaultItem) (masterKey : List Nat) (draw : Nat → Nat) :
    List Nat × List Nat :=
  let encodedData := textEncode (stringifyVaultItem data)
  let iv := getRandomValues 12 draw
  (aesGcmEncrypt masterKey iv encodedData, iv)

/-- decryptData from src/utils/crypto.ts: authenticated decryption, then
text-decode and JSON.parse of the plaintext; any failure along the way
(tag mismatch, malformed text, malformed JSON) is one atomic failure
(the source catches and rethrows a single error). -/
def decryptData (cipherText : List Nat) (iv : List Nat) (masterKey : List Nat) :
    Option VaultItem :=
  match aesGcmDecrypt masterKey iv cipherText with
  | none => none
  | some pt =>
    match textDecode pt with
    | none => none
    | some s =>
      match parseVaultItemChars s.data with
      | some (r, []) => some r
      | some (_, _ :: _) => none
      | none => none

/-- stringToSalt composed with btoa of the uid suffixed by a fixed tag
(unlockVault line 132).  btoa/atob are platform primitives; modelled from
the spec (section 4.1: a per-owner salt derived deterministically from
the owner identifier). -/
def deterministicSalt (uid : String) : List Nat :=
  textEncode (uid ++ "_salt_fixed_123")

/-! ## src/services/db.ts — the remote record store

Firestore is the external record store (spec section 6: put / get-all by
owner / delete by id, per-call atomicity).  Its contents are embedded as
the list of stored envelopes; each operation may instead fail, which the
callers receive as a thrown error — callers take a storeOk flag selecting
the outcome of their store calls. -/

/-- db.getItems: all envelopes whose ownerId equals the uid. -/
def dbGetItems (store : List EncryptedVaultItem) (uid : String) :
    List EncryptedVaultItem :=
  store.filter fun e => e.ownerId = uid

/-- db.saveItem: setDoc keyed by item.id — overwrites the document with
that id, or creates it. -/
def dbSaveItem (store : List EncryptedVaultItem) (item : EncryptedVaultItem) :
    List EncryptedVaultItem :=
  if store.any (fun e => e.id = item.id) then
    store.map fun e => if e.id = item.id then item else e
  else store ++ [item]

/-- db.deleteItem: deleteDoc keyed by id. -/
def dbDeleteItem (store : List EncryptedVaultItem) (idv : String) :
    List EncryptedVaultItem :=
  store.filter fun e => e.id ≠ idv

/-! ## src/App.tsx -/

/-- The comparator items.sort((a, b) => b.updatedAt - a.updatedAt) as a
total order test: a may precede b iff the comparator is non-positive. -/
def updatedDesc (a b : VaultItem) : Bool := b.updatedAt ≤ a.updatedAt

/-- The decryption loop of loadVaultItems (lines 149-157): each envelope
is decrypted independently inside its own try/catch; on success the
record is pushed with its id overwritten by the envelope id, on failure
the envelope id is logged (console.error) and the envelope skipped.
Returns the pushed records and the logged failure ids, in batch order. -/
def decryptLoop (key : List Nat) : List EncryptedVaultItem →
    List VaultItem × List String
  | [] => ([], [])
  | e :: rest =>
    match decryptData e.data e.iv key with
    | some d =>
      let p := decryptLoop key rest
      ({ d with id := e.id } :: p.1, p.2)
    | none =>
      let p := decryptLoop key rest
      (p.1, e.id :: p.2)

/-- The pure content of loadVaultItems on a fetched batch: the working
set it stores via setItems (decrypted records sorted by updatedAt
descending with JS's stable sort), together with the per-envelope
failure log. -/
def hydrateBatch (key : List Nat) (encryptedItems : List EncryptedVaultItem) :
    List VaultItem × List String :=
  let p := decryptLoop key encryptedItems
  (p.1.mergeSort updatedDesc, p.2)

/-- Session and vault state of the App component: the authenticated
principal, the in-memory session key, the lock flag, the decrypted
working set, and the remote store contents. -/
structure AppState where
  user : Option UserProfile
  masterKey : Option (List Nat)
  isVaultLocked : Bool
  items : List VaultItem
  store : List EncryptedVaultItem
deriving DecidableEq, Repr

/-- Observable outcome of loadVaultItems. -/
inductive LoadOutcome
  | loaded (failedIds : List String)
  | storeErrorToast
deriving DecidableEq, Repr

/-- loadVaultItems (lines 143-165): bulk-fetch the owner's envelopes —
on store failure only an error toast is shown and no state changes; on
success the working set is replaced wholesale by the hydrated batch and
the failure log is emitted. -/
def loadVaultItems (st : AppState) (uid : String) (key : List Nat)
    (storeOk : Bool) : AppState × LoadOutcome :=
  if storeOk then
    let fetched := dbGetItems st.store uid
    let p := hydrateBatch key fetched
    ({ st with items := p.1 }, .loaded p.2)
  else (st, .storeErrorToast)

/-- Observable outcome of unlockVault. -/
inductive UnlockOutcome
  | unlocked (load : LoadOutcome)
  | noUser
deriving DecidableEq, Repr

/-- unlockVault (lines 123-141): returns silently when no user is
present; otherwise derives the key from the password and the
deterministic per-uid salt — with no validation of the password, empty
or not — stores it, clears the lock flag and hydrates the vault. -/
def unlockVault (st : AppState) (password : String) (storeOk : Bool) :
    AppState × UnlockOutcome :=
  match st.user with
  | none => (st, .noUser)
  | some u =>
    let key := deriveKey password (deterministicSalt u.uid)
    let st1 := { st with masterKey := some key, isVaultLocked := false }
    let p := loadVaultItems st1 u.uid key storeOk
    (p.1, .unlocked p.2)

/-- JS truthiness of x || d for an optional string: undefined and the
empty string are falsy. -/
def jsOrString (x : Option String) (d : String) : String :=
  match x with
  | some s => if s = "" then d else s
  | none => d

/-- JS truthiness of x || d for an optional number: undefined and 0 are
falsy. -/
def jsOrNat (x : Option Nat) (d : Nat) : Nat :=
  match x with
  | some n => if n = 0 then d else n
  | none => d

/-- The newItem object literal of handleSaveItem (lines 171-183): every
field defaulted with JS truthiness ||, updatedAt stamped to Date.now()
(the now argument), the id defaulted to crypto.randomUUID() (the freshId
argument). -/
def buildNewItem (item : PartialVaultItem) (now : Nat) (freshId : String) :
    VaultItem :=
  { id := jsOrString item.id freshId
    type := item.type.getD ItemType.LOGIN
    title := jsOrString item.title "Untitled"
    username := jsOrString item.username ""
    password := jsOrString item.password ""
    url := jsOrString item.url ""
    notes := jsOrString item.notes ""
    folder := jsOrString item.folder ""
    favorite := item.favorite.getD false
    createdAt := jsOrNat item.createdAt now
    updatedAt := now }

/-- The setItems updater of handleSaveItem (lines 202-210): replace the
first entry whose id matches, keeping the rest in place. -/
def replaceFirstById : List VaultItem → VaultItem → List VaultItem
  | [], _ => []
  | i :: rest, n =>
    if i.id = n.id then n :: rest else i :: replaceFirstById rest n

/-- The setItems updater of handleSaveItem: replace in place if the id
exists (findIndex ≥ 0), else prepend. -/
def upsertItems (items : List VaultItem) (n : VaultItem) : List VaultItem :=
  if items.any (fun i => i.id = n.id) then replaceFirstById items n
  else n :: items

/-- Observable outcome of handleSaveItem. -/
inductive SaveOutcome
  | saved
  | silentNoop
  | storeErrorToast
deriving DecidableEq, Repr

/-- handleSaveItem (lines 168-219): silently returns — no error, no
state change — when user or masterKey is absent; otherwise builds
newItem, encrypts it, persists the envelope to the store keyed by the
record id, and only then updates the in-memory working set
(replace-or-prepend).  A store failure is caught: an error toast is
shown and the working set is not touched. -/
def handleSaveItem (st : AppState) (item : PartialVaultItem) (now : Nat)
    (freshId : String) (draw : Nat → Nat) (storeOk : Bool) :
    AppState × SaveOutcome :=
  match st.user, st.masterKey with
  | some u, some key =>
    let newItem := buildNewItem item now freshId
    let enc := encryptData newItem key draw
    let encryptedItem : EncryptedVaultItem :=
      { id := newItem.id, data := enc.1, iv := enc.2, salt := "",
        ownerId := u.uid, updatedAt := newItem.updatedAt }
    if storeOk then
      ({ st with store := dbSaveItem st.store encryptedItem,
                 items := upsertItems st.items newItem }, .saved)
    else (st, .storeErrorToast)
  | _, _ => (st, .silentNoop)

/-- Observable outcome of handleDeleteItem. -/
inductive DeleteOutcome
  | deleted
  | cancelled
  | storeErrorToast
deriving DecidableEq, Repr

/-- handleDeleteItem (lines 221-231): after the confirm() dialog it
deletes from the store and filters the working set — with no check of
the session state whatsoever.  A store failure is caught: an error toast
is shown and the working set is not touched. -/
def handleDeleteItem (st : AppState) (idv : String) (confirmed : Bool)
    (storeOk : Bool) : AppState × DeleteOutcome :=
  if confirmed then
    if storeOk then
      ({ st with store := dbDeleteItem st.store idv,
                 items := st.items.filter fun i => i.id ≠ idv }, .deleted)
    else (st, .storeErrorToast)
  else (st, .cancelled)

/-- Asynchronously delivered events of the App component relevant to the
lock/logout boundary: the onAuthStateChanged(null) handler (lines 69-74)
and the resumption of an in-flight loadVaultItems at its setItems call
(line 158) after the awaited fetch completes. -/
inductive AppEvent
  | authLoggedOut
  | hydrateComplete (decrypted : List VaultItem)
deriving Repr

/-- Apply one asynchronous event to the state.  authLoggedOut clears
user, key, lock flag and working set (lines 70-73).  hydrateComplete is
the pending setItems of a loadVaultItems that was in flight: the source
guards it by nothing — it runs whatever the current session state is. -/
def applyEvent (st : AppState) : AppEvent → AppState
  | .authLoggedOut =>
    { st with user := none, masterKey := none, isVaultLocked := true, items := [] }
  | .hydrateComplete decrypted => { st with items := decrypted }

/-! ## Concrete test fixtures

Small concrete values used by the witness and counterexample theorems
below; all evaluation happens through the definitions above. -/

/-- A concrete authenticated principal. -/
def u0 : UserProfile := { uid := "u1", email := none, displayName := none }

/-- A concrete session key, derived the way unlockVault derives it. -/
def key0 : List Nat := deriveKey "pw" (deterministicSalt "u1")

/-- A concrete entropy source. -/
def draw0 : Nat → Nat := fun i => i + 1

/-- A concrete vault record. -/
def r0 : VaultItem :=
  { id := "a", type := .LOGIN, title := "t", username := "n", password := "s",
    url := "", notes := "", folder := "", favorite := false,
    createdAt := 1, updatedAt := 5 }

/-- A second record with the same updatedAt as r0 (an ordering tie). -/
def r1 : VaultItem := { r0 with id := "b" }

/-- A record whose embedded id differs from the id its envelope is stored
under. -/
def rInner : VaultItem := { r0 with id := "inner" }

/-- The envelope of r0, stored under the matching id. -/
def env0 : EncryptedVaultItem :=
  { id := "a", data := (encryptData r0 key0 draw0).1,
    iv := (encryptData r0 key0 draw0).2, salt := "", ownerId := "u1",
    updatedAt := 5 }

/-- The envelope of r1, stored under the matching id. -/
def env1 : EncryptedVaultItem :=
  { id := "b", data := (encryptData r1 key0 draw0).1,
    iv := (encryptData r1 key0 draw0).2, salt := "", ownerId := "u1",
    updatedAt := 5 }

/-- An envelope with corrupted (empty) ciphertext: authentication cannot
succeed on it. -/
def envBad : EncryptedVaultItem :=
  { id := "bad", data := [], iv := [], salt := "", ownerId := "u1",
    updatedAt := 7 }

/-- The envelope of rInner, stored under the different id outer. -/
def envOuter : EncryptedVaultItem :=
  { id := "outer", data := (encryptData rInner key0 draw0).1,
    iv := (encryptData rInner key0 draw0).2, salt := "", ownerId := "u1",
    updatedAt := 5 }

/-- A save argument with every field absent. -/
def pEmpty : PartialVaultItem := {}

/-- A save argument whose only present field is createdAt = 0 (a falsy
number in JS). -/
def pZero : PartialVaultItem := { createdAt := some 0 }

/-- A save argument carrying an id, a title and a nonzero createdAt. -/
def pWit : PartialVaultItem :=
  { id := some "a", title := some "t2", createdAt := some 7 }

/-- An unlocked state holding one record. -/
def stU : AppState :=
  { user := some u0, masterKey := some key0, isVaultLocked := false,
    items := [r0], store := [env0] }

/-- An unlocked state with an empty vault. -/
def stUE : AppState :=
  { user := some u0, masterKey := some key0, isVaultLocked := false,
    items := [], store := [] }

/-- An unlocked state whose store holds one envelope but whose working
set is not yet hydrated (a hydrate is in flight). -/
def stPre : AppState :=
  { user := some u0, masterKey := some key0, isVaultLocked := false,
    items := [], store := [env0] }

/-- An authenticated but locked state: no session key. -/
def stLocked : AppState :=
  { user := some u0, masterKey := none, isVaultLocked := true,
    items := [], store := [env0] }

/-- An authenticated state before any unlock attempt. -/
def stAuth : AppState :=
  { user := some u0, masterKey := none, isVaultLocked := true,
    items := [], store := [] }

/-! ## Serialization round-trip lemmas -/

theorem string_mk_data (s : String) : (⟨s.data⟩ : String) = s := rfl

theorem expectChars_append (l r : List Char) : expectChars l (l ++ r) = some r := by
  induction l with
  | nil => rfl
  | cons c cs ih => simp [expectChars, ih]

theorem expectChars_cons_same (c : Char) (ps cs : List Char) :
    expectChars (c :: ps) (c :: cs) = expectChars ps cs := by
  simp [expectChars]

theorem isHex_hexChar (h : Nat) (hh : h < 16) :
    isHex (hexChar h) = true := by
  interval_cases h <;> decide

theorem hexVal_hexChar (h : Nat) (hh : h < 16) :
    hexVal (hexChar h) = h := by
  interval_cases h <;> decide

theorem parseStringAux_escList (l r : List Char) :
    parseStringAux (escList l ++ ('"' :: r)) = some (l, r) := by
  induction l with
  | nil =>
    simp only [escList, List.nil_append]
    rw [parseStringAux.eq_def]
    simp
  | cons c cs ih =>
    by_cases h1 : c = '"'
    · subst h1
      simp only [escList, escChar, List.append_assoc, List.cons_append,
        if_pos rfl]
      rw [parseStringAux.eq_def]
      simp [ih]
    · by_cases h2 : c = '\\'
      · subst h2
        simp only [escList, escChar, List.append_assoc, List.cons_append,
          if_pos rfl, if_neg (by decide : ¬('\\' : Char) = '"')]
        rw [parseStringAux.eq_def]
        simp [ih]
      · by_cases h3 : c.toNat < 32
        · have d1 : c.toNat / 16 < 16 := by omega
          have d2 : c.toNat % 16 < 16 := by omega
          have hv : c.toNat / 16 * 16 + c.toNat % 16 = c.toNat := by omega
          have e0 : isHex '0' = true := by decide
          have e1 : hexVal '0' = 0 := by decide
          simp only [escList, escChar, h1, h2, h3, if_neg, if_pos,
            List.append_assoc, List.cons_append, if_false, if_true]
          rw [parseStringAux.eq_def]
          simp [isHex_hexChar _ d1, isHex_hexChar _ d2,
            hexVal_hexChar _ d1, hexVal_hexChar _ d2, e0, e1, hv,
            Char.ofNat_toNat, ih]
        · simp only [escList, escChar, h1, h2, h3, if_neg, if_false,
            List.append_assoc, List.cons_append]
          rw [parseStringAux.eq_def]
          simp [h1, h2, h3, ih]

theorem parseJString_jstr (s : String) (r : List Char) :
    parseJString (jstr s ++ r) = some (s, r) := by
  have h := parseStringAux_escList s.data r
  simp [jstr, parseJString, List.append_assoc, h, string_mk_data]

theorem decDigit_toNat (d : Nat) (h : d < 10) : (decDigit d).toNat = 48 + d := by
  interval_cases d <;> decide

theorem isDecDigit_decDigit (d : Nat) (h : d < 10) :
    isDecDigit (decDigit d) = true := by
  interval_cases d <;> decide

theorem parseNatAux_natToCharsAux (fuel : Nat) :
    ∀ n acc rest, n < fuel →
      parseNatAux (natToCharsAux fuel n ++ rest) acc
        = parseNatAux rest (acc * 10 ^ (natToCharsAux fuel n).length + n) := by
  induction fuel with
  | zero => intro n acc rest h; omega
  | succ f ih =>
    intro n acc rest h
    by_cases h10 : n < 10
    · rw [natToCharsAux, if_pos h10]
      rw [parseNatAux.eq_def]
      simp [isDecDigit_decDigit n h10, decDigit_toNat n h10]
    · have hd : n / 10 < f := by omega
      have hm : n % 10 < 10 := by omega
      rw [natToCharsAux, if_neg h10, List.append_assoc,
        ih (n / 10) acc ([decDigit (n % 10)] ++ rest) hd]
      rw [List.singleton_append, parseNatAux.eq_def]
      simp only [isDecDigit_decDigit _ hm, decDigit_toNat _ hm, if_pos,
        if_true, List.length_append, List.length_singleton]
      have harith :
          (acc * 10 ^ (natToCharsAux f (n / 10)).length + n / 10) * 10
              + (48 + n % 10 - 48)
            = acc * 10 ^ ((natToCharsAux f (n / 10)).length + 1) + n := by
        have hdm : n / 10 * 10 + n % 10 = n := by omega
        have hsub : 48 + n % 10 - 48 = n % 10 := by omega
        calc (acc * 10 ^ (natToCharsAux f (n / 10)).length + n / 10) * 10
              + (48 + n % 10 - 48)
            = acc * (10 ^ (natToCharsAux f (n / 10)).length * 10)
                + (n / 10 * 10 + n % 10) := by rw [hsub]; ring
          _ = acc * 10 ^ ((natToCharsAux f (n / 10)).length + 1) + n := by
              rw [hdm, pow_succ]
      rw [harith]

theorem natToCharsAux_head_digit (fuel : Nat) :
    ∀ n, n < fuel → ∃ d ds, natToCharsAux fuel n = d :: ds
      ∧ isDecDigit d = true := by
  induction fuel with
  | zero => intro n h; omega
  | succ f ih =>
    intro n h
    by_cases h10 : n < 10
    · exact ⟨decDigit n, [], by rw [natToCharsAux, if_pos h10],
        isDecDigit_decDigit n h10⟩
    · have hd : n / 10 < f := by omega
      obtain ⟨d, ds, hds, hdig⟩ := ih (n / 10) hd
      exact ⟨d, ds ++ [decDigit (n % 10)],
        by rw [natToCharsAux, if_neg h10, hds]; rfl, hdig⟩

theorem parseNat_natToChars (n : Nat) (c : Char) (r : List Char)
    (hc : isDecDigit c = false) :
    parseNat (natToChars n ++ (c :: r)) = some (n, c :: r) := by
  obtain ⟨d, ds, hds, hdig⟩ := natToCharsAux_head_digit (n + 1) n (by omega)
  have hstop : parseNatAux (c :: r) (0 * 10 ^ (natToCharsAux (n + 1) n).length + n)
      = (n, c :: r) := by
    rw [parseNatAux.eq_def]
    simp [hc]
  have hrun := parseNatAux_natToCharsAux (n + 1) n 0 (c :: r) (by omega)
  rw [hstop] at hrun
  show parseNat (natToCharsAux (n + 1) n ++ (c :: r)) = some (n, c :: r)
  rw [hds] at hrun ⊢
  rw [List.cons_append] at hrun ⊢
  rw [parseNat.eq_def]
  simp only [hdig, if_true]
  rw [hrun]

theorem parseBool_boolChars (b : Bool) (r : List Char) :
    parseBool (boolChars b ++ r) = some (b, r) := by
  cases b
  · have hfail : expectChars (boolChars true) (boolChars false ++ r) = none := by
      simp [boolChars, expectChars]
    rw [parseBool, hfail, expectChars_append]
  · rw [parseBool, expectChars_append]

theorem ofStr_toStr (t : ItemType) : ItemType.ofStr t.toStr = some t := by
  cases t <;> decide

theorem pStrField_round (name v : String) (r : List Char) :
    pStrField name (',' :: (fieldPre name ++ (jstr v ++ r))) = some (v, r) := by
  rw [pStrField, expectChars_cons_same, expectChars_append]
  show parseJString (jstr v ++ r) = some (v, r)
  rw [parseJString_jstr]

theorem pNatField_round (name : String) (n : Nat) (c : Char) (r : List Char)
    (hc : isDecDigit c = false) :
    pNatField name (',' :: (fieldPre name ++ (natToChars n ++ (c :: r))))
      = some (n, c :: r) := by
  rw [pNatField, expectChars_cons_same, expectChars_append]
  show parseNat (natToChars n ++ (c :: r)) = some (n, c :: r)
  rw [parseNat_natToChars n c r hc]

theorem isDecDigit_comma : isDecDigit ',' = false := by decide

theorem isDecDigit_rbrace : isDecDigit '\x7d' = false := by decide

theorem pNatField_comma (name : String) (n : Nat) (r : List Char) :
    pNatField name (',' :: (fieldPre name ++ (natToChars n ++ (',' :: r))))
      = some (n, ',' :: r) :=
  pNatField_round name n ',' r isDecDigit_comma

theorem pNatField_rbrace (name : String) (n : Nat) (r : List Char) :
    pNatField name (',' :: (fieldPre name ++ (natToChars n ++ ('\x7d' :: r))))
      = some (n, '\x7d' :: r) :=
  pNatField_round name n '\x7d' r isDecDigit_rbrace

theorem parseVaultItemChars_serializeChars (rec : VaultItem) :
    parseVaultItemChars (serializeChars rec) = some (rec, []) := by
  simp only [serializeChars, parseVaultItemChars, List.append_assoc,
    List.cons_append, expectChars_cons_same, expectChars_append,
    parseJString_jstr, pStrField_round, ofStr_toStr, parseBool_boolChars,
    pNatField_comma, pNatField_rbrace]
  rfl

/-! ## Codec round-trip lemmas -/

theorem data_mk (cs : List Char) : (⟨cs⟩ : String).data = cs := rfl

theorem decodeChars_map_toNat (l : List Char) :
    decodeChars (l.map Char.toNat) = some l := by
  induction l with
  | nil => rfl
  | cons c cs ih =>
    have hc : charOfCode c.toNat = some c := by
      rw [charOfCode, if_pos (by rw [Char.ofNat_toNat]), Char.ofNat_toNat]
    simp [decodeChars, hc, ih]

theorem textDecode_textEncode (s : String) :
    textDecode (textEncode s) = some s := by
  rw [textEncode, textDecode, decodeChars_map_toNat]
  simp [string_mk_data]

theorem aesGcmDecrypt_aesGcmEncrypt (key nonce pt : List Nat) :
    aesGcmDecrypt key nonce (aesGcmEncrypt key nonce pt) = some pt := by
  rw [aesGcmEncrypt, aesGcmDecrypt]
  simp

/-- Claim C2: for every record r and key k (and whatever entropy the
internal nonce draw consumes), decrypting the output of encryption with
the same key returns the original record: the canonical stable-field-
order serialization round-trips losslessly through encryptData and
decryptData. -/
theorem c2_encrypt_decrypt_round_trip (r : VaultItem) (k : List Nat)
    (draw : Nat → Nat) :
    decryptData (encryptData r k draw).1 (encryptData r k draw).2 k = some r := by
  simp only [encryptData, decryptData, aesGcmDecrypt_aesGcmEncrypt,
    textDecode_textEncode, stringifyVaultItem, data_mk,
    parseVaultItemChars_serializeChars]

/-! ## Hydration lemmas -/

theorem decryptLoop_fail_count (key : List Nat) (l : List EncryptedVaultItem) :
    (decryptLoop key l).2.length
      = l.countP fun e => (decryptData e.data e.iv key).isNone := by
  induction l with
  | nil => rfl
  | cons e es ih =>
    cases h : decryptData e.data e.iv key with
    | none => simp [decryptLoop, h, ih, List.countP_cons]
    | some d => simp [decryptLoop, h, ih, List.countP_cons]

theorem mem_decryptLoop_of (key : List Nat) (l : List EncryptedVaultItem)
    (e : EncryptedVaultItem) (d : VaultItem) (he : e ∈ l)
    (hd : decryptData e.data e.iv key = some d) :
    { d with id := e.id } ∈ (decryptLoop key l).1 := by
  induction l with
  | nil => cases he
  | cons a as ih =>
    rcases List.mem_cons.mp he with rfl | hmem
    · simp [decryptLoop, hd]
    · cases h : decryptData a.data a.iv key with
      | none =>
        simp only [decryptLoop, h]
        exact ih hmem
      | some d2 =>
        simp only [decryptLoop, h, List.mem_cons]
        exact Or.inr (ih hmem)

theorem of_mem_decryptLoop (key : List Nat) (l : List EncryptedVaultItem)
    (r : VaultItem) (hr : r ∈ (decryptLoop key l).1) :
    ∃ e, e ∈ l ∧ ∃ d, decryptData e.data e.iv key = some d
      ∧ r = { d with id := e.id } := by
  induction l with
  | nil => simp [decryptLoop] at hr
  | cons a as ih =>
    cases h : decryptData a.data a.iv key with
    | none =>
      simp only [decryptLoop, h] at hr
      obtain ⟨e, he, d, hd, hrd⟩ := ih hr
      exact ⟨e, List.mem_cons_of_mem a he, d, hd, hrd⟩
    | some d =>
      simp only [decryptLoop, h, List.mem_cons] at hr
      rcases hr with rfl | hr
      · exact ⟨a, List.mem_cons_self a as, d, h, rfl⟩
      · obtain ⟨e, he, d2, hd2, hrd⟩ := ih hr
        exact ⟨e, List.mem_cons_of_mem a he, d2, hd2, hrd⟩

/-- Claim C1: hydration attempts decryption of each envelope of the
batch independently: a failing envelope does not abort the others, the
number of recorded failures (the per-envelope failure log emitted at
line 154) is exactly the number of envelopes that fail to decrypt, and
every decryptable envelope contributes its record to the working set. -/
theorem c1_decrypt_failure_isolation (key : List Nat)
    (batch : List EncryptedVaultItem) :
    (hydrateBatch key batch).2.length
        = batch.countP (fun e => (decryptData e.data e.iv key).isNone)
    ∧ ∀ e ∈ batch, ∀ d, decryptData e.data e.iv key = some d →
        { d with id := e.id } ∈ (hydrateBatch key batch).1 := by
  constructor
  · simpa [hydrateBatch] using decryptLoop_fail_count key batch
  · intro e he d hd
    have h := mem_decryptLoop_of key batch e d he hd
    simpa [hydrateBatch, List.mem_mergeSort] using h

/-- Claim C3: the hydrated working set is sorted by updatedAt descending;
ties keep their order from the input batch (the deterministic tie-break
of JS's stable sort), and repeated hydration of identical input yields
an identical result. -/
theorem c3_hydrate_ordering (key : List Nat) (batch : List EncryptedVaultItem) :
    List.Pairwise (fun a b => b.updatedAt ≤ a.updatedAt) (hydrateBatch key batch).1
    ∧ (∀ a b, [a, b].Sublist (decryptLoop key batch).1 →
        a.updatedAt = b.updatedAt → [a, b].Sublist (hydrateBatch key batch).1)
    ∧ (∀ key2 batch2, key2 = key → batch2 = batch →
        hydrateBatch key2 batch2 = hydrateBatch key batch) := by
  have htrans : ∀ a b c : VaultItem, updatedDesc a b = true →
      updatedDesc b c = true → updatedDesc a c = true := by
    intro a b c hab hbc
    simp only [updatedDesc, decide_eq_true_eq] at hab hbc ⊢
    omega
  have htotal : ∀ a b : VaultItem, (updatedDesc a b || updatedDesc b a) = true := by
    intro a b
    simp only [updatedDesc, Bool.or_eq_true, decide_eq_true_eq]
    omega
  refine ⟨?_, ?_, ?_⟩
  · have h := @List.sorted_mergeSort VaultItem updatedDesc htrans htotal
      (decryptLoop key batch).1
    simp only [hydrateBatch]
    exact h.imp fun hab => by
      simpa only [updatedDesc, decide_eq_true_eq] using hab
  · intro a b hsub htie
    have hpair : List.Pairwise (fun x y => updatedDesc x y = true) [a, b] := by
      refine List.Pairwise.cons ?_
        (List.Pairwise.cons (by intro y hy; cases hy) List.Pairwise.nil)
      intro y hy
      have hyb : y = b := List.mem_singleton.mp hy
      subst hyb
      simp only [updatedDesc, decide_eq_true_eq]
      omega
    simp only [hydrateBatch]
    exact List.sublist_mergeSort htrans htotal hpair hsub
  · intro key2 batch2 h1 h2
    rw [h1, h2]

/-- Claim C10: every record placed in the working set by hydration
carries the identifier of the stored envelope it came from — the id
embedded in the decrypted plaintext is overwritten by the envelope id. -/
theorem c10_record_id_from_envelope (key : List Nat)
    (batch : List EncryptedVaultItem) :
    ∀ r ∈ (hydrateBatch key batch).1, ∃ e, e ∈ batch ∧ ∃ d,
      decryptData e.data e.iv key = some d ∧ r = { d with id := e.id }
      ∧ r.id = e.id := by
  intro r hr
  simp only [hydrateBatch, List.mem_mergeSort] at hr
  obtain ⟨e, he, d, hd, hrd⟩ := of_mem_decryptLoop key batch r hr
  exact ⟨e, he, d, hd, hrd, by rw [hrd]⟩

/-! ## Session-state theorems -/

/-- Claim C4 (counterexample): with a session that is not unlocked (no
masterKey), handleSaveItem silently returns without raising anything and
without touching any state, and handleDeleteItem does not fail at all —
it performs the remote delete and working-set removal despite the locked
session.  Neither operation raises a precondition-violation error. -/
theorem c4_counterexample :
    handleSaveItem stLocked pEmpty 9 "f9" draw0 true = (stLocked, .silentNoop)
    ∧ handleDeleteItem stLocked "a" true true
        = ({ stLocked with store := [] }, .deleted) := by
  constructor
  · rfl
  · rfl

/-- Claim C4 (amended): CRUD while not Unlocked does not fail
explicitly: upsert silently no-ops (state unchanged, silent-noop
outcome, no error), and remove ignores the session state entirely,
behaving exactly as when unlocked. -/
theorem c4_amended_no_precondition_error (st : AppState)
    (h : st.user = none ∨ st.masterKey = none) :
    (∀ item now freshId draw storeOk,
        handleSaveItem st item now freshId draw storeOk = (st, .silentNoop))
    ∧ ∀ idv confirmed storeOk,
        handleDeleteItem st idv confirmed storeOk
          = if confirmed then
              if storeOk then
                ({ st with store := dbDeleteItem st.store idv,
                           items := st.items.filter fun i => i.id ≠ idv },
                  .deleted)
              else (st, .storeErrorToast)
            else (st, .cancelled) := by
  constructor
  · intro item now freshId draw storeOk
    rcases h with h | h
    · cases hk : st.masterKey <;> simp [handleSaveItem, h, hk]
    · cases hu : st.user <;> simp [handleSaveItem, h, hu]
  · intro idv confirmed storeOk
    rfl

/-- Claim C5 (counterexample): a record passed to upsert carrying
createdAt = 0 (a record that has a createdAt) does not keep it: JS
truthiness treats 0 as absent and restamps createdAt to the current
time. -/
theorem c5_counterexample :
    pZero.createdAt = some 0
    ∧ ((handleSaveItem stUE pZero 1000 "f" draw0 true).1.items.map
        fun i => i.createdAt) = [1000]
    ∧ (1000 : Nat) ≠ 0 := by
  refine ⟨rfl, rfl, by decide⟩

/-- Claim C5 (amended): while Unlocked, upsert assigns the fresh
identifier when the given one is absent (or empty, which JS treats as
absent), keeps a given non-empty identifier, stamps updatedAt to the
current time, preserves a nonzero createdAt and restamps an absent or
zero one, persists the envelope keyed by the record identifier, updates
the working set by replacing the first entry with the same identifier
or else prepending — and only updates the working set when the store
write succeeded. -/
theorem c5_upsert_behaviour (st : AppState) (u : UserProfile)
    (key : List Nat) (item : PartialVaultItem) (now : Nat) (freshId : String)
    (draw : Nat → Nat) (hu : st.user = some u) (hk : st.masterKey = some key) :
    (item.id = none ∨ item.id = some "" →
        (buildNewItem item now freshId).id = freshId)
    ∧ (∀ s, item.id = some s → s ≠ "" → (buildNewItem item now freshId).id = s)
    ∧ (buildNewItem item now freshId).updatedAt = now
    ∧ (∀ c, item.createdAt = some c → c ≠ 0 →
        (buildNewItem item now freshId).createdAt = c)
    ∧ (item.createdAt = none ∨ item.createdAt = some 0 →
        (buildNewItem item now freshId).createdAt = now)
    ∧ handleSaveItem st item now freshId draw true
        = ({ st with
              store := dbSaveItem st.store
                { id := (buildNewItem item now freshId).id,
                  data := (encryptData (buildNewItem item now freshId) key draw).1,
                  iv := (encryptData (buildNewItem item now freshId) key draw).2,
                  salt := "", ownerId := u.uid,
                  updatedAt := (buildNewItem item now freshId).updatedAt },
              items := upsertItems st.items (buildNewItem item now freshId) },
            .saved)
    ∧ handleSaveItem st item now freshId draw false = (st, .storeErrorToast)
    ∧ ∀ items2 : List VaultItem,
        upsertItems items2 (buildNewItem item now freshId)
          = if items2.any fun i => i.id = (buildNewItem item now freshId).id then
              replaceFirstById items2 (buildNewItem item now freshId)
            else (buildNewItem item now freshId) :: items2 := by
  refine ⟨?_, ?_, rfl, ?_, ?_, ?_, ?_, fun items2 => rfl⟩
  · intro hid
    rcases hid with hid | hid <;> simp [buildNewItem, jsOrString, hid]
  · intro s hid hs
    simp [buildNewItem, jsOrString, hid, hs]
  · intro c hc hc0
    simp [buildNewItem, jsOrNat, hc, hc0]
  · intro hc
    rcases hc with hc | hc <;> simp [buildNewItem, jsOrNat, hc]
  · simp [handleSaveItem, hu, hk]
  · simp [handleSaveItem, hu, hk]

/-- Claim C6: when the remote store operation fails, upsert, remove and
hydrate each surface the error (the error-toast outcome) and leave the
whole state — in particular the working set and the session key —
exactly as it was. -/
theorem c6_store_failure_preserves_state (st : AppState) :
    (∀ u key item now freshId draw, st.user = some u → st.masterKey = some key →
        handleSaveItem st item now freshId draw false = (st, .storeErrorToast))
    ∧ (∀ idv, handleDeleteItem st idv true false = (st, .storeErrorToast))
    ∧ (∀ uid key, loadVaultItems st uid key false = (st, .storeErrorToast)) := by
  refine ⟨?_, fun idv => rfl, fun uid key => rfl⟩
  intro u key item now freshId draw hu hk
  simp [handleSaveItem, hu, hk]

set_option maxRecDepth 100000 in
/-- Claim C7 (code bug): the logout transition clears the working set
and the key, but it does not cancel or guard an in-flight hydrate: when
the pending setItems of a loadVaultItems that was awaiting the store
runs after logout, the decrypted records it carries repopulate the
working set — the post-logout state holds cleartext records, against
the unconditional-discard rule. -/
theorem c7_stale_hydrate_survives_logout :
    (applyEvent (applyEvent stPre .authLoggedOut)
        (.hydrateComplete (hydrateBatch key0 (dbGetItems stPre.store u0.uid)).1)).user
        = none
    ∧ (applyEvent (applyEvent stPre .authLoggedOut)
        (.hydrateComplete (hydrateBatch key0 (dbGetItems stPre.store u0.uid)).1)).masterKey
        = none
    ∧ (applyEvent (applyEvent stPre .authLoggedOut)
        (.hydrateComplete (hydrateBatch key0 (dbGetItems stPre.store u0.uid)).1)).items
        ≠ [] := by
  refine ⟨rfl, rfl, ?_⟩
  show (hydrateBatch key0 (dbGetItems stPre.store u0.uid)).1 ≠ []
  have hget : dbGetItems stPre.store u0.uid = [env0] := by decide
  have hloop : decryptLoop key0 [env0] = ([r0], []) := by decide
  have hlen : (hydrateBatch key0 (dbGetItems stPre.store u0.uid)).1.length = 1 := by
    rw [hget]
    simp only [hydrateBatch]
    rw [(List.mergeSort_perm (decryptLoop key0 [env0]).1 updatedDesc).length_eq,
      hloop]
    rfl
  intro hnil
  rw [hnil] at hlen
  simp at hlen

/-- Claim C8 (counterexample): an unlock attempt with the empty master
password is not rejected: the key is derived from the empty string and
the vault unlocks. -/
theorem c8_counterexample :
    (unlockVault stAuth "" true).1.masterKey
        = some (deriveKey "" (deterministicSalt "u1"))
    ∧ (unlockVault stAuth "" true).1.isVaultLocked = false :=
  ⟨rfl, rfl⟩

/-- Claim C8 (amended): an unlock attempt with an empty master password
proceeds like any other: key derivation is invoked on the empty string
(the only guard in unlockVault is on a missing user) and the session
unlocks with that derived key. -/
theorem c8_amended_empty_password_not_rejected (st : AppState)
    (u : UserProfile) (hu : st.user = some u) (storeOk : Bool) :
    (unlockVault st "" storeOk).1.masterKey
        = some (deriveKey "" (deterministicSalt u.uid))
    ∧ (unlockVault st "" storeOk).1.isVaultLocked = false := by
  cases storeOk <;> simp [unlockVault, hu, loadVaultItems]

/-- Claim C9: every encrypt call draws a fresh 12-byte nonce from the
entropy source inside the codec — the returned nonce is exactly the
drawn randomness, independent of the record and key, and callers pass
no nonce — so whenever the randomness drawn by N successive calls under
the same key is pairwise distinct, the N nonces are pairwise
distinct. -/
theorem c9_nonce_generation (records : Nat → VaultItem)
    (keys : Nat → List Nat) (draws : Nat → Nat → Nat) (N : Nat) :
    (∀ i, (encryptData (records i) (keys i) (draws i)).2
        = getRandomValues 12 (draws i))
    ∧ (∀ i, ((encryptData (records i) (keys i) (draws i)).2).length = 12)
    ∧ ((∀ i, i < N → ∀ j, j < N → i ≠ j →
          getRandomValues 12 (draws i) ≠ getRandomValues 12 (draws j)) →
        ∀ i, i < N → ∀ j, j < N → i ≠ j →
          (encryptData (records i) (keys i) (draws i)).2
            ≠ (encryptData (records j) (keys j) (draws j)).2) := by
  refine ⟨fun i => rfl, fun i => ?_, fun hfresh i hi j hj hij => ?_⟩
  · simp [encryptData, getRandomValues]
  · show getRandomValues 12 (draws i) ≠ getRandomValues 12 (draws j)
    exact hfresh i hi j hj hij

/-! ## Witnesses: the claim theorems applied at concrete inputs -/

set_option maxRecDepth 200000 in
/-- Witness for C1 at a concrete two-envelope batch with one corrupted
ciphertext: failure count exactly one, the other record present. -/
theorem c1_witness :
    (hydrateBatch key0 [env0, envBad]).2.length = 1
    ∧ r0 ∈ (hydrateBatch key0 [env0, envBad]).1 := by
  constructor
  · rw [(c1_decrypt_failure_isolation key0 [env0, envBad]).1]
    decide
  · exact (c1_decrypt_failure_isolation key0 [env0, envBad]).2 env0
      (by decide) r0 (by decide)

set_option maxRecDepth 200000 in
/-- Witness for C3 at a concrete batch with an updatedAt tie: the two
tied records keep their batch order in the hydrated working set. -/
theorem c3_witness :
    [r0, r1].Sublist (hydrateBatch key0 [env0, env1]).1
    ∧ hydrateBatch key0 [env0, env1] = hydrateBatch key0 [env0, env1] := by
  constructor
  · apply (c3_hydrate_ordering key0 [env0, env1]).2.1 r0 r1
    · have hloop : decryptLoop key0 [env0, env1] = ([r0, r1], []) := by decide
      rw [hloop]
    · rfl
  · exact (c3_hydrate_ordering key0 [env0, env1]).2.2 key0 [env0, env1] rfl rfl

/-- Witness for the amended C4 at a concrete locked state. -/
theorem c4_witness :
    handleSaveItem stLocked pEmpty 3 "g" draw0 false = (stLocked, .silentNoop)
    ∧ handleDeleteItem stLocked "a" false true = (stLocked, .cancelled) := by
  constructor
  · exact (c4_amended_no_precondition_error stLocked (Or.inr rfl)).1
      pEmpty 3 "g" draw0 false
  · have h := (c4_amended_no_precondition_error stLocked (Or.inr rfl)).2
      "a" false true
    simpa using h

/-- Witness for the amended C5 at a concrete unlocked state and a
concrete record carrying an id and a nonzero createdAt. -/
theorem c5_witness :
    (buildNewItem pWit 9 "g").id = "a"
    ∧ (buildNewItem pWit 9 "g").updatedAt = 9
    ∧ (buildNewItem pWit 9 "g").createdAt = 7
    ∧ handleSaveItem stU pWit 9 "g" draw0 false = (stU, .storeErrorToast) := by
  have h := c5_upsert_behaviour stU u0 key0 pWit 9 "g" draw0 rfl rfl
  exact ⟨h.2.1 "a" rfl (by decide), h.2.2.1, h.2.2.2.1 7 rfl (by decide),
    h.2.2.2.2.2.2.1⟩

/-- Witness for C6 at a concrete unlocked state. -/
theorem c6_witness :
    handleSaveItem stU pEmpty 9 "g" draw0 false = (stU, .storeErrorToast)
    ∧ handleDeleteItem stU "a" true false = (stU, .storeErrorToast)
    ∧ loadVaultItems stU "u1" key0 false = (stU, .storeErrorToast) := by
  have h := c6_store_failure_preserves_state stU
  exact ⟨h.1 u0 key0 pEmpty 9 "g" draw0 rfl rfl, h.2.1 "a", h.2.2 "u1" key0⟩

/-- Witness for the amended C8 at a concrete authenticated state. -/
theorem c8_witness :
    (unlockVault stAuth "" false).1.masterKey
        = some (deriveKey "" (deterministicSalt u0.uid))
    ∧ (unlockVault stAuth "" false).1.isVaultLocked = false :=
  c8_amended_empty_password_not_rejected stAuth u0 rfl false

/-- Witness for C9 at two concrete encrypt calls whose drawn randomness
differs: the two nonces differ. -/
theorem c9_witness :
    (encryptData r0 key0 (fun _ => 0)).2 ≠ (encryptData r0 key0 (fun _ => 1)).2 :=
  (c9_nonce_generation (fun _ => r0) (fun _ => key0) (fun i _ => i) 2).2.2
    (by decide) 0 (by decide) 1 (by decide) (by decide)

set_option maxRecDepth 200000 in
/-- Witness for C10 at a concrete envelope whose stored id differs from
the id embedded in its plaintext: the hydrated record carries the
envelope id. -/
theorem c10_witness :
    ∃ e, e ∈ [envOuter] ∧ ∃ d, decryptData e.data e.iv key0 = some d
      ∧ ({ rInner with id := "outer" } : VaultItem) = { d with id := e.id }
      ∧ ({ rInner with id := "outer" } : VaultItem).id = e.id := by
  apply c10_record_id_from_envelope key0 [envOuter] { rInner with id := "outer" }
  simp only [hydrateBatch, List.mem_mergeSort]
  have hloop : decryptLoop key0 [envOuter]
      = ([{ rInner with id := "outer" }], []) := by decide
  rw [hloop]
  exact List.mem_singleton.mpr rfl

end Lockify
